import Mathlib

/-!
Verification of the expense-tracker OpenAI client core: the wire data model,
the schema enforcer (StrictObj), body decompression dispatch (GetBody),
model-snapshot parsing (ParseModelSnapshot), output-text extraction
(extractOutputText), run-metadata construction (ExtractLLMRunMetadata),
and the completion-polling state machine (waitForResponseCompletion and the
polling skeleton of SendPromptReturnResponse).

Modelling conventions:
- Go strings are Lean String values, except in ParseModelSnapshot where the
  code indexes and slices the string, modelled as List Char.
- Go pointers that may be nil are Option values; a nil-pointer dereference is
  an explicit GoPanic error value.
- Wall-clock time in the polling loop is discrete: each status fetch takes
  zero logical time and each sleep advances the clock by the wait interval;
  elapsed time and durations are integers (seconds).
- The Go polling loop has no bound on iterations, so its Lean model takes a
  fuel argument; exhausting fuel yields a distinguished outOfFuel result.
- Floating-point fields that no modelled computation inspects (temperature)
  and logging-only fields are omitted from the wire structures.
-/

namespace ExpenseTracker

/-- Wire content fragment (contentItem in the Go source): a fragment of a
message output item, carrying extracted text when its type is output_text. -/
structure ContentItem where
  type : String
  text : String
  deriving DecidableEq, Repr

/-- Wire output item (outputItem in the Go source): typically a message with
content fragments, or a non-message tool event. -/
structure OutputItem where
  id : String
  type : String
  content : List ContentItem
  deriving DecidableEq, Repr

/-- Wire usage sub-block input_tokens_details. -/
structure InputTokensDetails where
  cachedTokens : Int
  deriving DecidableEq, Repr

/-- Wire usage sub-block output_tokens_details. -/
structure OutputTokensDetails where
  reasoningTokens : Int
  deriving DecidableEq, Repr

/-- Wire usage block (usageBlock in the Go source); the two detail blocks are
pointers in Go and may be absent. -/
structure UsageBlock where
  inputTokens : Int
  inputTokensDetails : Option InputTokensDetails
  outputTokens : Int
  totalTokens : Int
  outputTokensDetails : Option OutputTokensDetails
  deriving DecidableEq, Repr

/-- Effort is a string-typed enumeration in Go (type Effort string). -/
abbrev Effort := String

/-- Wire reasoning block; effort is a pointer in Go and may be absent. -/
structure Reasoning where
  effort : Option Effort
  summary : Option String
  deriving DecidableEq, Repr

/-- Wire response envelope (responseObject in the Go source), restricted to
the fields the modelled functions read. -/
structure ResponseObject where
  id : String
  model : String
  status : String
  output : List OutputItem
  usage : Option UsageBlock
  reasoning : Option Reasoning
  deriving DecidableEq, Repr

/-- The Go zero value of responseObject (var lastResp responseObject). -/
def ResponseObject.zero : ResponseObject :=
  { id := "", model := "", status := "", output := [], usage := none, reasoning := none }

/-! ## extractOutputText (src/build/README.md, the openai REST client file) -/

/-- Condition under which a content fragment is appended by
extractOutputText: c.Type == "output_text" && c.Text != "". -/
def keepFragment (c : ContentItem) : Prop :=
  c.type = "output_text" ∧ c.text ≠ ""

instance (c : ContentItem) : Decidable (keepFragment c) := by
  unfold keepFragment; infer_instance

/-- Model of extractOutputText: iterates output items in order, skips items
whose type is not message, and appends to the builder every content fragment
of type output_text with non-empty text. -/
def extractOutputText (resp : ResponseObject) : String :=
  resp.output.foldl
    (fun acc out =>
      if out.type ≠ "message" then acc
      else
        out.content.foldl
          (fun acc2 c => if keepFragment c then acc2 ++ c.text else acc2)
          acc)
    ""

/-- Separator-free concatenation of a list of strings, written from the
claim wording (concatenation in original order with no separator). -/
def concatAll : List String → String
  | [] => ""
  | s :: rest => s ++ concatAll rest

/-- Specification-side description of output-text extraction: the
concatenation, in original order, of the text of every kept fragment of
every message item. -/
def outputTextSpec (resp : ResponseObject) : String :=
  concatAll
    ((resp.output.filter (fun o => decide (o.type = "message"))).map
      (fun o => concatAll
        ((o.content.filter (fun c => decide (keepFragment c))).map ContentItem.text)))

/-- Concrete response for the foo/bar instance of the claim: one message item
holding fragments foo and bar, plus one non-message item. -/
def fooBarResponse : ResponseObject :=
  { ResponseObject.zero with
    output :=
      [ { id := "msg_1", type := "message",
          content :=
            [ { type := "output_text", text := "foo" },
              { type := "output_text", text := "bar" } ] },
        { id := "rs_1", type := "reasoning", content := [] } ] }

/-! ## ParseModelSnapshot (src/src/pkg/openai/build-metadata.go)

The Go code indexes and slices the model string, so it is modelled over
List Char. -/

/-- Model of unicode.IsSpace as used by strings.TrimSpace: the Unicode
White_Space property. -/
def goIsSpace (c : Char) : Bool :=
  (9 ≤ c.toNat && c.toNat ≤ 13) || c.toNat = 32 || c.toNat = 0x85 || c.toNat = 0xA0 ||
    c.toNat = 0x1680 || (0x2000 ≤ c.toNat && c.toNat ≤ 0x200A) ||
    c.toNat = 0x2028 || c.toNat = 0x2029 || c.toNat = 0x202F ||
    c.toNat = 0x205F || c.toNat = 0x3000

/-- Model of strings.TrimSpace: drop White_Space characters from both ends. -/
def goTrimSpace (s : List Char) : List Char :=
  ((s.dropWhile goIsSpace).reverse.dropWhile goIsSpace).reverse

/-- ASCII digit test, as used by the Go time parser. -/
def isAsciiDigit (c : Char) : Bool :=
  48 ≤ c.toNat && c.toNat ≤ 57

/-- Numeric value of an ASCII digit. -/
def digitVal (c : Char) : Nat := c.toNat - 48

/-- Gregorian leap-year rule, as in the Go time package. -/
def isLeapYear (y : Nat) : Bool :=
  y % 4 = 0 && (y % 100 ≠ 0 || y % 400 = 0)

/-- Number of days in a month, as in the Go time package. -/
def daysInMonth (y m : Nat) : Nat :=
  if m = 2 then (if isLeapYear y then 29 else 28)
  else if m = 4 ∨ m = 6 ∨ m = 9 ∨ m = 11 then 30
  else 31

/-- Model of time.Parse with layout 2006-01-02 succeeding on the given
value: exactly ten characters, four year digits, a hyphen, two month digits,
a hyphen, two day digits, with the month in 1..12 and the day in range for
the month and year. -/
def parseDate10 : List Char → Bool
  | [y1, y2, y3, y4, s1, m1, m2, s2, d1, d2] =>
    s1 = '-' && s2 = '-' &&
    isAsciiDigit y1 && isAsciiDigit y2 && isAsciiDigit y3 && isAsciiDigit y4 &&
    isAsciiDigit m1 && isAsciiDigit m2 && isAsciiDigit d1 && isAsciiDigit d2 &&
    (let y := ((digitVal y1 * 10 + digitVal y2) * 10 + digitVal y3) * 10 + digitVal y4
     let mo := digitVal m1 * 10 + digitVal m2
     let d := digitVal d1 * 10 + digitVal d2
     1 ≤ mo && mo ≤ 12 && 1 ≤ d && d ≤ daysInMonth y mo)
  | _ => false

/-- Index of the last hyphen in the list (strings.LastIndex(m, "-")),
or none when there is no hyphen. -/
def lastDashIdx : List Char → Option Nat
  | [] => none
  | c :: cs =>
    match lastDashIdx cs with
    | some i => some (i + 1)
    | none => if c = '-' then some 0 else none

/-- Model of the fallback branch of ParseModelSnapshot: take the segment
after the last hyphen; if it has the length of 2006-01-02 and parses as a
date, split there, otherwise return the input with an empty snapshot. -/
def snapshotFallback (m : List Char) : List Char × List Char :=
  match lastDashIdx m with
  | none => (m, [])
  | some i =>
    let candidate := m.drop (i + 1)
    if candidate.length ≠ 10 then (m, [])
    else if parseDate10 candidate then (m.take i, candidate)
    else (m, [])

/-- Model of ParseModelSnapshot: trim the input, try the fast path (at least
eleven characters, the last ten parse as a date, and the character before
them is a hyphen), otherwise fall back to the last hyphen-delimited
segment. -/
def ParseModelSnapshot (model : List Char) : List Char × List Char :=
  let m := goTrimSpace model
  if 11 ≤ m.length ∧ parseDate10 (m.drop (m.length - 10)) = true ∧
      m.getD (m.length - 11) ' ' = '-' then
    (m.take (m.length - 11), m.drop (m.length - 10))
  else snapshotFallback m

/-- String-typed wrapper of ParseModelSnapshot, as called from
ExtractLLMRunMetadata. -/
def ParseModelSnapshotS (model : String) : String × String :=
  let p := ParseModelSnapshot model.toList
  (String.mk p.1, String.mk p.2)

/-- Specification-side definition for the refinement claim: the fast path of
ParseModelSnapshot alone, with the fallback replaced by the empty-snapshot
result. -/
def parseModelSnapshotFastOnly (model : List Char) : List Char × List Char :=
  let m := goTrimSpace model
  if 11 ≤ m.length ∧ parseDate10 (m.drop (m.length - 10)) = true ∧
      m.getD (m.length - 11) ' ' = '-' then
    (m.take (m.length - 11), m.drop (m.length - 10))
  else (m, [])

/-! ## StrictObj (src/src/pkg/openai/build-metadata.go) -/

/-- The object schema StrictObj returns; the Go function returns a
map whose four entries are modelled as the four fields below.
Properties are an association list standing for the Go map; a none input
stands for a nil Go map. -/
structure StrictSchema (α : Type) where
  type : String
  properties : List (String × α)
  additionalProperties : Bool
  required : List String
  deriving Repr

/-- Model of StrictObj: nil input is replaced by the empty map, the keys are
collected and sorted (sort.Strings), and the strict object schema is built.
Go map iteration order is unspecified; the sort makes the required list
independent of it, so the association list order stands in for it here. -/
def StrictObj (α : Type) (props : Option (List (String × α))) : StrictSchema α :=
  let ps := props.getD []
  let keys := ps.map Prod.fst
  { type := "object"
    properties := ps
    additionalProperties := false
    required := List.insertionSort (· ≤ ·) keys }

/-! ## ExtractLLMRunMetadata (src/src/pkg/openai/build-metadata.go) and the
token-usage logging block of SendPromptReturnResponse -/

/-- A Go runtime panic reached by the modelled code. -/
inductive GoPanic where
  | nilPointerDereference
  deriving DecidableEq, Repr

/-- Run-metadata record (LLMRunMetadata in the Go source), restricted to the
fields the modelled construction writes; the float temperature field is
omitted. Times are epoch milliseconds. -/
structure LLMRunMetadata where
  responseID : String
  responseLogsUrl : String
  model : String
  modelSnapshot : String
  status : String
  reasoningEffort : Effort
  tokensIn : Int
  tokensCached : Int
  tokensOut : Int
  tokensReasoning : Int
  tokensTotal : Int
  startedAt : Int
  finishedAt : Int
  elapsed : Int
  deriving DecidableEq, Repr

/-- Model of ExtractLLMRunMetadata. startMs is the caller-supplied start
time and nowMs the current time at extraction, both epoch milliseconds.
When the reasoning block is present the Go code dereferences its effort
pointer unconditionally (meta.ReasoningEffort = *resp.Reasoning.Effort), so
an absent effort is a nil-pointer panic; when the reasoning block is absent
the field keeps its zero value. The two usage detail blocks are guarded by
matching nil checks here, unlike in the logging block below. -/
def ExtractLLMRunMetadata (resp : ResponseObject) (startMs nowMs : Int) :
    Except GoPanic LLMRunMetadata := do
  let p := ParseModelSnapshotS resp.model
  let effort : Effort ←
    match resp.reasoning with
    | some rsn =>
      match rsn.effort with
      | some eff => pure eff
      | none => Except.error GoPanic.nilPointerDereference
    | none => pure ""
  let tokens : Int × Int × Int × Int × Int :=
    match resp.usage with
    | none => (0, 0, 0, 0, 0)
    | some u =>
      ( u.inputTokens,
        (match u.inputTokensDetails with
         | some d => d.cachedTokens
         | none => 0),
        u.outputTokens,
        (match u.outputTokensDetails with
         | some d => d.reasoningTokens
         | none => 0),
        u.totalTokens )
  pure
    { responseID := resp.id
      responseLogsUrl := "https://platform.openai.com/logs/" ++ resp.id
      model := p.1
      modelSnapshot := p.2
      status := resp.status
      reasoningEffort := effort
      tokensIn := tokens.1
      tokensCached := tokens.2.1
      tokensOut := tokens.2.2.1
      tokensReasoning := tokens.2.2.2.1
      tokensTotal := tokens.2.2.2.2
      startedAt := startMs
      finishedAt := nowMs
      elapsed := nowMs - startMs }

/-- Model of the token-usage logging block of SendPromptReturnResponse:
computes the cached and reasoning token counts interpolated into the log
line, or none when no usage block is present. In the Go source the second
guard checks InputTokensDetails again but dereferences
OutputTokensDetails.ReasoningTokens, so a usage block with input details and
no output details is a nil-pointer panic. -/
def logTokenUsage (finalResp : ResponseObject) : Except GoPanic (Option (Int × Int)) :=
  match finalResp.usage with
  | none => pure none
  | some u => do
    let cachedTokens : Int :=
      match u.inputTokensDetails with
      | some d => d.cachedTokens
      | none => 0
    let reasoningTokens : Int ←
      match u.inputTokensDetails with
      | some _ =>
        match u.outputTokensDetails with
        | some d => pure d.reasoningTokens
        | none => Except.error GoPanic.nilPointerDereference
      | none => pure 0
    pure (some (cachedTokens, reasoningTokens))

/-! ## GetBody (src/src/pkg/openai/request-body.go) -/

/-- Abstract wire body: a compressed stream is represented by its decoded
content together with the compression format that produced it. This models
the compression libraries by their round-trip contract. -/
inductive WireBody where
  | gzipOf (b : List Nat)
  | deflateOf (b : List Nat)
  | brOf (b : List Nat)
  | raw (b : List Nat)
  deriving DecidableEq, Repr

/-- Outcome of GetBody. nilReaderPanic is the runtime panic of io.ReadAll
applied to a nil reader interface; unmodeledBytes stands for reading the
undecoded byte stream of a compressed body, which this abstraction does not
represent byte-for-byte. -/
inductive BodyOutcome where
  | ok (bytes : List Nat)
  | gzipHeaderError
  | readError
  | nilReaderPanic
  | unmodeledBytes
  deriving DecidableEq, Repr

/-- Model of GetBody. The outer reader variable starts nil. In the gzip case
the Go source writes a short variable declaration
(reader, err := gzip.NewReader(resp.Body)) whose reader is a new variable
local to that case clause, shadowing the outer one; the outer reader is
still nil when io.ReadAll(reader) runs, so a valid gzip stream reaches a nil
dereference and an invalid one is rejected by gzip.NewReader first. The
deflate and br cases assign to the outer reader; every other encoding reads
the body as-is. -/
def GetBody (contentEncoding : String) (body : WireBody) : BodyOutcome :=
  if contentEncoding = "gzip" then
    match body with
    | .gzipOf _ => .nilReaderPanic
    | _ => .gzipHeaderError
  else if contentEncoding = "deflate" then
    match body with
    | .deflateOf b => .ok b
    | _ => .readError
  else if contentEncoding = "br" then
    match body with
    | .brOf b => .ok b
    | _ => .readError
  else
    match body with
    | .raw b => .ok b
    | _ => .unmodeledBytes

/-! ## waitForResponseCompletion (src/build/README.md, the openai REST
client file) and the polling skeleton of SendPromptReturnResponse
(src/unnamed/part_002)

Discrete-time model: the clock starts at zero when polling starts, a status
fetch takes zero logical time, util.WaitForSeconds advances the clock by the
wait interval, and the deadline check time.Now().After(deadline) is
elapsed > timeout. Durations are in seconds. The status endpoint is an
oracle giving the outcome of the k-th GET /v1/responses/id call. -/

/-- Status values of the terminal-success arm of the polling switch. -/
def terminalSuccess (s : String) : Prop :=
  s = "completed" ∨ s = "incomplete" ∨ s = ""

instance (s : String) : Decidable (terminalSuccess s) := by
  unfold terminalSuccess; infer_instance

/-- Status values of the terminal-failure arm of the polling switch. -/
def terminalFailure (s : String) : Prop :=
  s = "failed" ∨ s = "cancelled" ∨ s = "expired"

instance (s : String) : Decidable (terminalFailure s) := by
  unfold terminalFailure; infer_instance

/-- A status on which the loop keeps polling. -/
def nonTerminal (s : String) : Prop :=
  ¬ terminalSuccess s ∧ ¬ terminalFailure s

instance (s : String) : Decidable (nonTerminal s) := by
  unfold nonTerminal; infer_instance

/-- Outcome of one getResponseByID call: a transport error or a parsed
response object. -/
inductive FetchResult where
  | fail
  | ok (resp : ResponseObject)
  deriving DecidableEq, Repr

/-- The status endpoint as an oracle over fetch indices (0-based). -/
abbrev StatusOracle := Nat → FetchResult

/-- Result of waitForResponseCompletion. Each constructor carries the number
of status fetches performed (the final value of the poll counter). The
timeoutErr constructor carries the returned lastResp (its status overwritten
with timeout), the response id named in the timeout log line, and the
configured timeout named in the error message. outOfFuel is the model
artifact for exhausting the loop-iteration budget. -/
inductive PollResult where
  | success (resp : ResponseObject) (polls : Nat)
  | jobFailure (resp : ResponseObject) (polls : Nat)
  | fetchError (lastResp : ResponseObject) (polls : Nat)
  | timeoutErr (lastResp : ResponseObject) (lastKnownID : String) (waitedFor : Int) (polls : Nat)
  | outOfFuel
  deriving DecidableEq, Repr

/-- Number of status fetches recorded in a poll result. -/
def PollResult.fetches : PollResult → Nat
  | .success _ n => n
  | .jobFailure _ n => n
  | .fetchError _ n => n
  | .timeoutErr _ _ _ n => n
  | .outOfFuel => 0

/-- Whether a poll result is the local timeout error. -/
def PollResult.isTimeout : PollResult → Bool
  | .timeoutErr _ _ _ _ => true
  | _ => false

/-- The polling loop of waitForResponseCompletion. State: remaining fuel,
elapsed seconds t, fetches performed so far, and the last fetched response.
Each iteration first checks the deadline (when timeout is positive), then
fetches, then switches on the status: terminal success returns the
response, terminal failure returns the error, anything else sleeps for the
interval and repeats. -/
def waitLoop (fetch : StatusOracle) (responseID : String) (waitInterval timeout : Int) :
    Nat → Int → Nat → ResponseObject → PollResult
  | 0, _, _, _ => .outOfFuel
  | fuel + 1, t, poll, lastResp =>
    if 0 < timeout ∧ timeout < t then
      .timeoutErr { lastResp with status := "timeout" } responseID timeout poll
    else
      match fetch poll with
      | .fail => .fetchError lastResp (poll + 1)
      | .ok resp =>
        if terminalSuccess resp.status then .success resp (poll + 1)
        else if terminalFailure resp.status then .jobFailure resp (poll + 1)
        else waitLoop fetch responseID waitInterval timeout fuel (t + waitInterval) (poll + 1) resp

/-- Model of waitForResponseCompletion: run the polling loop from elapsed
time zero, zero polls, and a zero-valued lastResp. -/
def waitForResponseCompletion (fetch : StatusOracle) (responseID : String)
    (waitInterval timeout : Int) (fuel : Nat) : PollResult :=
  waitLoop fetch responseID waitInterval timeout fuel 0 0 ResponseObject.zero

/-- Outcome of the polling skeleton of SendPromptReturnResponse: ok means
the final response is handed on to extractOutputText and
ExtractLLMRunMetadata; err covers the early returns on waitErr. Each
carries the number of status fetches performed. -/
inductive SendOutcome where
  | ok (finalResp : ResponseObject) (statusFetches : Nat)
  | err (statusFetches : Nat)
  | outOfFuel
  deriving DecidableEq, Repr

/-- Number of status fetches recorded in a send outcome. -/
def SendOutcome.fetches : SendOutcome → Nat
  | .ok _ n => n
  | .err n => n
  | .outOfFuel => 0

/-- The completion-detection and polling skeleton of
SendPromptReturnResponse: an initial status of the empty string or completed
is used as the final response directly; any other status enters
waitForResponseCompletion with a 2-second interval and a 300-second
(5-minute) timeout, and only its success result is handed on to
extraction. -/
def sendPromptPoll (initial : ResponseObject) (fetch : StatusOracle) (fuel : Nat) :
    SendOutcome :=
  if initial.status = "" ∨ initial.status = "completed" then
    .ok initial 0
  else
    match waitForResponseCompletion fetch initial.id 2 300 fuel with
    | .success resp n => .ok resp n
    | .jobFailure _ n => .err n
    | .fetchError _ n => .err n
    | .timeoutErr _ _ _ n => .err n
    | .outOfFuel => .outOfFuel

/-! ## Concrete scenario inputs used by individual claims -/

/-- An in-progress response with the id polled in the C1 scenario. -/
def inProgressResp : ResponseObject :=
  { ResponseObject.zero with id := "resp_1", status := "in_progress" }

/-- The completed response the C1 status endpoint eventually returns. -/
def completedResp : ResponseObject :=
  { ResponseObject.zero with id := "resp_1", status := "completed" }

/-- Status endpoint of the C1 scenario: in_progress on the first three
fetches, completed from the fourth on. -/
def c1Oracle : StatusOracle := fun k =>
  if k < 3 then .ok inProgressResp else .ok completedResp

/-- An incomplete response used as the initial response in the C2
counterexample scenario. -/
def incompleteResp : ResponseObject :=
  { ResponseObject.zero with id := "resp_2", status := "incomplete" }

/-- Status endpoint that always reports the incomplete response. -/
def incompleteOracle : StatusOracle := fun _ => .ok incompleteResp

/-- Status endpoint that always reports in_progress (used for timeout
scenarios). -/
def inProgressOracle : StatusOracle := fun _ => .ok inProgressResp

/-- The characters of gpt-5-nano. -/
def gptNanoChars : List Char := ['g', 'p', 't', '-', '5', '-', 'n', 'a', 'n', 'o']

/-- The characters of gpt-5-nano-rc1. -/
def gptNanoRc1Chars : List Char := gptNanoChars ++ ['-', 'r', 'c', '1']

/-- The characters of the sample snapshot date 2025-08-07. -/
def sampleDateChars : List Char := ['2', '0', '2', '5', '-', '0', '8', '-', '0', '7']

/-! ## Helper lemmas -/

/-- Folding content fragments from an arbitrary accumulator prepends the
accumulator to the fold from the empty string. -/
theorem contentFoldl_shift (l : List ContentItem) (s : String) :
    l.foldl (fun acc c => if keepFragment c then acc ++ c.text else acc) s
      = s ++ l.foldl (fun acc c => if keepFragment c then acc ++ c.text else acc) "" := by
  induction l generalizing s with
  | nil => simp [String.append_empty]
  | cons c l ih =>
    simp only [List.foldl_cons]
    by_cases h : keepFragment c
    · rw [if_pos h, if_pos h, ih (s ++ c.text), ih ("" ++ c.text), String.empty_append,
        String.append_assoc]
    · rw [if_neg h, if_neg h, ih s]

/-- The inner fragment fold computes the concatenation of the kept fragment
texts. -/
theorem contentFoldl_spec (l : List ContentItem) :
    l.foldl (fun acc c => if keepFragment c then acc ++ c.text else acc) ""
      = concatAll ((l.filter (fun c => decide (keepFragment c))).map ContentItem.text) := by
  induction l with
  | nil => rfl
  | cons c l ih =>
    simp only [List.foldl_cons]
    by_cases h : keepFragment c
    · rw [if_pos h, contentFoldl_shift, String.empty_append, ih]
      simp [List.filter_cons, h, concatAll]
    · rw [if_neg h, ih]
      simp [List.filter_cons, h]

/-- The outer item fold computes the concatenation of the per-message
concatenations, shifted by the accumulator. -/
theorem outputFoldl_spec (items : List OutputItem) (s : String) :
    items.foldl
      (fun acc out =>
        if out.type ≠ "message" then acc
        else out.content.foldl
          (fun acc2 c => if keepFragment c then acc2 ++ c.text else acc2) acc)
      s
      = s ++ concatAll
          ((items.filter (fun o => decide (o.type = "message"))).map
            (fun o => concatAll
              ((o.content.filter (fun c => decide (keepFragment c))).map ContentItem.text))) := by
  induction items generalizing s with
  | nil => simp [concatAll, String.append_empty]
  | cons o items ih =>
    simp only [List.foldl_cons]
    by_cases h : o.type = "message"
    · rw [if_neg (by simp [h]), contentFoldl_shift, ih, contentFoldl_spec]
      simp [List.filter_cons, h, concatAll, String.append_assoc]
    · rw [if_pos h, ih]
      simp [List.filter_cons, h]

/-! ## Claim theorems -/

/-- C7: extractOutputText returns the separator-free concatenation, in
original order, of the text of every output_text fragment with non-empty
text taken from message items only; in particular the foo/bar response with
one extra non-message item yields foobar. -/
theorem c7_extract_output_text :
    (∀ resp : ResponseObject, extractOutputText resp = outputTextSpec resp)
      ∧ extractOutputText fooBarResponse = "foobar" := by
  constructor
  · intro resp
    unfold extractOutputText outputTextSpec
    rw [outputFoldl_spec, String.empty_append]
  · rfl

/-- C5: StrictObj builds an object schema with type object, the given
properties, additionalProperties false, and a required list that is the
alphabetically sorted list of the property keys (stated as: sorted, and a
permutation of the keys); a nil or empty property map yields an empty
required list and empty properties. -/
theorem c5_strict_obj (α : Type) (props : List (String × α)) :
    (StrictObj α (some props)).type = "object"
      ∧ (StrictObj α (some props)).additionalProperties = false
      ∧ (StrictObj α (some props)).properties = props
      ∧ List.Sorted (· ≤ ·) (StrictObj α (some props)).required
      ∧ (StrictObj α (some props)).required.Perm (props.map Prod.fst)
      ∧ (StrictObj α none).required = []
      ∧ (StrictObj α none).properties = []
      ∧ (StrictObj α (some [])).required = [] := by
  refine ⟨rfl, rfl, rfl, ?_, ?_, rfl, rfl, rfl⟩
  · exact List.sorted_insertionSort (· ≤ ·) (props.map Prod.fst)
  · exact List.perm_insertionSort (· ≤ ·) (props.map Prod.fst)

/-- C4: evaluation of GetBody per content encoding. The deflate and
identity paths return the decoded bytes, but the gzip path reaches
io.ReadAll on the nil outer reader (the gzip reader is bound to a shadowed
variable) and panics instead of returning the decoded bytes, so the claim
that all three encodings succeed with identical bytes fails on the code. -/
theorem c4_get_body_eval :
    (∀ b : List Nat, GetBody "gzip" (WireBody.gzipOf b) = BodyOutcome.nilReaderPanic)
      ∧ (∀ b : List Nat, GetBody "deflate" (WireBody.deflateOf b) = BodyOutcome.ok b)
      ∧ (∀ b : List Nat, GetBody "" (WireBody.raw b) = BodyOutcome.ok b) := by
  exact ⟨fun b => rfl, fun b => rfl, fun b => rfl⟩

/-- C9: evaluation of the post-completion processing at the claimed inputs.
A usage block carrying input_tokens_details but no output_tokens_details
makes the token-usage logging dereference the nil OutputTokensDetails
pointer (its guard re-checks InputTokensDetails), and a reasoning block
without an effort field makes ExtractLLMRunMetadata dereference the nil
Effort pointer; both panic, so the no-panic claim fails on the code. -/
theorem c9_nil_dereference_eval :
    logTokenUsage
        { ResponseObject.zero with
          usage := some
            { inputTokens := 5, inputTokensDetails := some { cachedTokens := 2 },
              outputTokens := 3, totalTokens := 8, outputTokensDetails := none } }
        = Except.error GoPanic.nilPointerDereference
      ∧ ExtractLLMRunMetadata
          { ResponseObject.zero with
            reasoning := some { effort := none, summary := none } } 0 0
          = Except.error GoPanic.nilPointerDereference
      ∧ logTokenUsage
          { ResponseObject.zero with
            usage := some
              { inputTokens := 5, inputTokensDetails := some { cachedTokens := 2 },
                outputTokens := 3, totalTokens := 8,
                outputTokensDetails := some { reasoningTokens := 4 } } }
          = Except.ok (some (2, 4)) := by
  exact ⟨rfl, rfl, rfl⟩

/-- C1 counterexample: in the 2-second-interval, 6-second-deadline scenario
whose status endpoint answers in_progress three times and then completed,
the loop does not perform 3 status polls: observing the completed status is
itself the fourth poll. -/
theorem c1_counterexample :
    (waitForResponseCompletion c1Oracle "resp_1" 2 6 10).fetches ≠ 3 := by
  decide

/-- C1 (amended): in that scenario the loop performs exactly 4 status polls,
the fourth observing completed, and returns success with no timeout error;
with instantaneous fetches the fourth deadline check happens at exactly 6
seconds of elapsed time, which does not exceed the deadline. -/
theorem c1_four_polls_success :
    waitForResponseCompletion c1Oracle "resp_1" 2 6 10
      = PollResult.success completedResp 4 := by
  decide

/-- C2 counterexample: a submission whose initial response status is
incomplete does not short-circuit: the polling skeleton enters
waitForResponseCompletion and performs a status fetch (here exactly one,
since the fetched status is terminal), so the count of additional network
status fetches is not zero. -/
theorem c2_counterexample :
    (sendPromptPoll incompleteResp incompleteOracle 10).fetches ≠ 0 := by
  decide

/-- C2 (amended): for every submission whose initial response status is
completed or the empty string, the polling skeleton performs zero
additional status fetches and hands the initial response directly to
extraction. -/
theorem c2_zero_fetches_on_completed_or_empty
    (initial : ResponseObject) (fetch : StatusOracle) (fuel : Nat)
    (h : initial.status = "" ∨ initial.status = "completed") :
    sendPromptPoll initial fetch fuel = SendOutcome.ok initial 0 := by
  unfold sendPromptPoll
  rw [if_pos h]

/-- C2 witness: the amended theorem applied to a concrete completed initial
response. -/
theorem c2_witness :
    sendPromptPoll completedResp incompleteOracle 5 = SendOutcome.ok completedResp 0 :=
  c2_zero_fetches_on_completed_or_empty completedResp incompleteOracle 5 (Or.inr rfl)

/-- A poll result of the success constructor only arises from a response
whose status is in the terminal-success set. -/
theorem waitLoop_success_terminal (fetch : StatusOracle) (id : String)
    (wi timeout : Int) :
    ∀ (fuel : Nat) (t : Int) (poll : Nat) (lastResp resp : ResponseObject) (n : Nat),
      waitLoop fetch id wi timeout fuel t poll lastResp = PollResult.success resp n →
      terminalSuccess resp.status := by
  intro fuel
  induction fuel with
  | zero =>
    intro t poll lastResp resp n h
    simp [waitLoop] at h
  | succ fuel ih =>
    intro t poll lastResp resp n h
    rw [waitLoop] at h
    by_cases hto : 0 < timeout ∧ timeout < t
    · rw [if_pos hto] at h
      simp at h
    · rw [if_neg hto] at h
      cases hf : fetch poll with
      | fail =>
        rw [hf] at h
        simp at h
      | ok r =>
        rw [hf] at h
        by_cases hs : terminalSuccess r.status
        · simp only [if_pos hs] at h
          injection h with h1 h2
          subst h1
          exact hs
        · simp only [if_neg hs] at h
          by_cases hfail : terminalFailure r.status
          · simp only [if_pos hfail] at h
            simp at h
          · simp only [if_neg hfail] at h
            exact ih _ _ _ _ _ h

/-- C8: whenever the polling skeleton of SendPromptReturnResponse hands a
final response on to extraction, that response has a terminal-success
status (completed, incomplete, or empty); no non-terminal response and no
error outcome reaches extraction. -/
theorem c8_terminal_invariant
    (initial : ResponseObject) (fetch : StatusOracle) (fuel : Nat)
    (resp : ResponseObject) (n : Nat)
    (h : sendPromptPoll initial fetch fuel = SendOutcome.ok resp n) :
    terminalSuccess resp.status := by
  unfold sendPromptPoll at h
  by_cases h0 : initial.status = "" ∨ initial.status = "completed"
  · rw [if_pos h0] at h
    injection h with h1 h2
    subst h1
    rcases h0 with h0 | h0
    · exact Or.inr (Or.inr h0)
    · exact Or.inl h0
  · rw [if_neg h0] at h
    cases hw : waitForResponseCompletion fetch initial.id 2 300 fuel with
    | success r m =>
      rw [hw] at h
      simp only [] at h
      injection h with h1 h2
      subst h1
      exact waitLoop_success_terminal fetch initial.id 2 300 fuel 0 0 ResponseObject.zero r m hw
    | jobFailure r m => rw [hw] at h; simp at h
    | fetchError r m => rw [hw] at h; simp at h
    | timeoutErr a b c d => rw [hw] at h; simp at h
    | outOfFuel => rw [hw] at h; simp at h

/-- C8 witness: a concrete run reaching extraction, with the invariant
instantiated by the theorem. -/
theorem c8_witness :
    sendPromptPoll completedResp incompleteOracle 1 = SendOutcome.ok completedResp 0
      ∧ terminalSuccess completedResp.status :=
  ⟨by decide, c8_terminal_invariant completedResp incompleteOracle 1 completedResp 0 (by decide)⟩

/-- Terminal-failure statuses are not terminal-success statuses. -/
theorem terminalFailure_not_success (s : String) :
    terminalFailure s → ¬ terminalSuccess s := by
  intro hf hs
  rcases hf with h | h | h <;> subst h <;>
    rcases hs with h' | h' | h' <;> simp at h'

/-- Auxiliary for C3, positive deadline: with a status endpoint that never
reports a terminal status before step N, the loop started at step j (with
elapsed time j sleeps) runs to the deadline check at step N and times out
with the poll counter at N. N is the least step whose elapsed time exceeds
the deadline. -/
theorem waitLoop_timeout_aux (fetch : StatusOracle) (id : String)
    (wi timeout : Int) (r : Nat → ResponseObject) (N : Nat)
    (htpos : 0 < timeout)
    (hfetch : ∀ k, k < N → fetch k = FetchResult.ok (r k) ∧ nonTerminal (r k).status)
    (hN : timeout < wi * (N : Int))
    (hN' : ∀ m : Nat, m < N → ¬ timeout < wi * (m : Int)) :
    ∀ (fuel j : Nat) (lastResp : ResponseObject), j ≤ N → N - j + 1 ≤ fuel →
      waitLoop fetch id wi timeout fuel (wi * (j : Int)) j lastResp
        = PollResult.timeoutErr
            { (if j = N then lastResp else r (N - 1)) with status := "timeout" }
            id timeout N := by
  intro fuel
  induction fuel with
  | zero =>
    intro j lastResp hj hfuel
    omega
  | succ fuel ih =>
    intro j lastResp hj hfuel
    by_cases hjN : j = N
    · subst hjN
      rw [waitLoop, if_pos ⟨htpos, hN⟩, if_pos rfl]
    · have hjlt : j < N := lt_of_le_of_ne hj hjN
      rw [waitLoop, if_neg (fun hc => hN' j hjlt hc.2), (hfetch j hjlt).1]
      simp only [if_neg (hfetch j hjlt).2.1, if_neg (hfetch j hjlt).2.2]
      have hstep : wi * (j : Int) + wi = wi * ((j + 1 : Nat) : Int) := by
        push_cast
        ring
      rw [hstep, ih (j + 1) (r j) (by omega) (by omega)]
      have harg : (if j + 1 = N then r j else r (N - 1)) = r (N - 1) := by
        by_cases h1 : j + 1 = N
        · rw [if_pos h1]
          have hj1 : j = N - 1 := by omega
          rw [hj1]
        · rw [if_neg h1]
      rw [harg, if_neg hjN]

/-- Auxiliary for C3, non-positive deadline: the loop never returns the
local timeout error. -/
theorem waitLoop_no_timeout (fetch : StatusOracle) (id : String) (wi timeout : Int)
    (ht : timeout ≤ 0) :
    ∀ (fuel : Nat) (t : Int) (poll : Nat) (lastResp : ResponseObject),
      (waitLoop fetch id wi timeout fuel t poll lastResp).isTimeout = false := by
  intro fuel
  induction fuel with
  | zero => intro t poll lastResp; rfl
  | succ fuel ih =>
    intro t poll lastResp
    rw [waitLoop, if_neg (fun hc => absurd hc.1 (not_lt.mpr ht))]
    cases hf : fetch poll with
    | fail => rfl
    | ok resp =>
      by_cases hs : terminalSuccess resp.status
      · simp only [if_pos hs]
        rfl
      · simp only [if_neg hs]
        by_cases hfail : terminalFailure resp.status
        · simp only [if_pos hfail]
          rfl
        · simp only [if_neg hfail]
          exact ih _ _ _

/-- Auxiliary for C3, non-positive deadline: the loop polls until the first
terminal status, returning it with the poll counter at its index plus
one. -/
theorem waitLoop_terminal_aux (fetch : StatusOracle) (id : String)
    (wi timeout : Int) (r : Nat → ResponseObject) (k0 : Nat) (rT : ResponseObject)
    (ht : timeout ≤ 0)
    (hfetch : ∀ k, k < k0 → fetch k = FetchResult.ok (r k) ∧ nonTerminal (r k).status)
    (hT : fetch k0 = FetchResult.ok rT) :
    ∀ (fuel j : Nat) (t : Int) (lastResp : ResponseObject), j ≤ k0 → k0 - j + 1 ≤ fuel →
      (terminalSuccess rT.status →
        waitLoop fetch id wi timeout fuel t j lastResp = PollResult.success rT (k0 + 1))
      ∧ (terminalFailure rT.status →
        waitLoop fetch id wi timeout fuel t j lastResp = PollResult.jobFailure rT (k0 + 1)) := by
  intro fuel
  induction fuel with
  | zero =>
    intro j t lastResp hj hfuel
    omega
  | succ fuel ih =>
    intro j t lastResp hj hfuel
    have hnot : ¬ (0 < timeout ∧ timeout < t) := fun hc => absurd hc.1 (not_lt.mpr ht)
    by_cases hjk : j = k0
    · subst hjk
      constructor
      · intro hs
        rw [waitLoop, if_neg hnot, hT]
        simp only [if_pos hs]
      · intro hfail
        rw [waitLoop, if_neg hnot, hT]
        simp only [if_neg (terminalFailure_not_success rT.status hfail), if_pos hfail]
    · have hjlt : j < k0 := lt_of_le_of_ne hj hjk
      have hrec := ih (j + 1) (t + wi) (r j) (by omega) (by omega)
      constructor
      · intro hs
        rw [waitLoop, if_neg hnot, (hfetch j hjlt).1]
        simp only [if_neg (hfetch j hjlt).2.1, if_neg (hfetch j hjlt).2.2]
        exact hrec.1 hs
      · intro hfail
        rw [waitLoop, if_neg hnot, (hfetch j hjlt).1]
        simp only [if_neg (hfetch j hjlt).2.1, if_neg (hfetch j hjlt).2.2]
        exact hrec.2 hfail

/-- C3: with a positive deadline, once elapsed time exceeds the deadline
before any terminal status was observed the loop returns the timeout error
(carrying the polled response id and the timeout duration named in the
error message, with the last response status overwritten to timeout) after
exactly N status fetches, N being the least step whose elapsed time exceeds
the deadline, and performs no further fetches (the result is determined by
the first N endpoint answers alone); with a non-positive deadline the loop
never returns a timeout and polls until the first terminal status. -/
theorem c3_deadline_semantics (fetch : StatusOracle) (id : String)
    (wi timeout : Int) (r : Nat → ResponseObject) (N k0 : Nat) (rT : ResponseObject) :
    (0 < timeout →
      (∀ k, k < N → fetch k = FetchResult.ok (r k) ∧ nonTerminal (r k).status) →
      timeout < wi * (N : Int) →
      (∀ m : Nat, m < N → ¬ timeout < wi * (m : Int)) →
      ∀ fuel, N + 1 ≤ fuel →
        waitForResponseCompletion fetch id wi timeout fuel
          = PollResult.timeoutErr { r (N - 1) with status := "timeout" } id timeout N)
    ∧ (timeout ≤ 0 →
      (∀ fuel, (waitForResponseCompletion fetch id wi timeout fuel).isTimeout = false)
      ∧ ((∀ k, k < k0 → fetch k = FetchResult.ok (r k) ∧ nonTerminal (r k).status) →
        fetch k0 = FetchResult.ok rT →
        ∀ fuel, k0 + 1 ≤ fuel →
          (terminalSuccess rT.status →
            waitForResponseCompletion fetch id wi timeout fuel
              = PollResult.success rT (k0 + 1))
          ∧ (terminalFailure rT.status →
            waitForResponseCompletion fetch id wi timeout fuel
              = PollResult.jobFailure rT (k0 + 1)))) := by
  constructor
  · intro htpos hfetch hN hN' fuel hfuel
    have hN0 : N ≠ 0 := by
      intro h0
      subst h0
      simp only [Nat.cast_zero, mul_zero] at hN
      omega
    have haux := waitLoop_timeout_aux fetch id wi timeout r N htpos hfetch hN hN'
      fuel 0 ResponseObject.zero (by omega) (by omega)
    rw [if_neg (fun h => hN0 h.symm)] at haux
    unfold waitForResponseCompletion
    simpa using haux
  · intro ht
    refine ⟨fun fuel => waitLoop_no_timeout fetch id wi timeout ht fuel 0 0 ResponseObject.zero, ?_⟩
    intro hfetch hT fuel hfuel
    exact waitLoop_terminal_aux fetch id wi timeout r k0 rT ht hfetch hT
      fuel 0 0 ResponseObject.zero (by omega) (by omega)

/-- C3 witness: the theorem applied to a concrete timing-out run
(interval 2, deadline 6, endpoint always in_progress: timeout after 4
fetches) and to a concrete deadline-free run (deadline 0: no timeout, and
polling continues until the completed status on the fourth fetch). -/
theorem c3_witness :
    waitForResponseCompletion inProgressOracle "resp_1" 2 6 5
        = PollResult.timeoutErr { inProgressResp with status := "timeout" } "resp_1" 6 4
      ∧ (waitForResponseCompletion c1Oracle "resp_1" 2 0 7).isTimeout = false
      ∧ waitForResponseCompletion c1Oracle "resp_1" 2 0 4
          = PollResult.success completedResp 4 := by
  refine ⟨?_, ?_, ?_⟩
  · exact (c3_deadline_semantics inProgressOracle "resp_1" 2 6
      (fun _ => inProgressResp) 4 0 ResponseObject.zero).1
      (by decide) (by decide) (by decide) (by decide) 5 (by omega)
  · exact ((c3_deadline_semantics c1Oracle "resp_1" 2 0
      (fun _ => inProgressResp) 0 3 completedResp).2 (by decide)).1 7
  · exact (((c3_deadline_semantics c1Oracle "resp_1" 2 0
      (fun _ => inProgressResp) 0 3 completedResp).2 (by decide)).2
      (by decide) (by decide) 4 (by omega)).1 (by decide)

/-- An ASCII digit is not a White_Space character. -/
theorem digit_not_space (c : Char) (h : isAsciiDigit c = true) : goIsSpace c = false := by
  cases hgs : goIsSpace c with
  | false => rfl
  | true =>
    exfalso
    unfold goIsSpace at hgs
    unfold isAsciiDigit at h
    simp only [Bool.or_eq_true, Bool.and_eq_true, decide_eq_true_eq] at hgs h
    omega

/-- Shape facts about a successfully parsed date: ten characters, a hyphen
among them, and appending it after a hyphen leaves a reversed list headed
by its final digit, which is not whitespace. -/
theorem parseDate10_facts (d : List Char) (h : parseDate10 d = true) :
    d.length = 10 ∧ '-' ∈ d
      ∧ ∀ l : List Char, goIsSpace ((l ++ '-' :: d).reverse.headD '-') = false := by
  match d with
  | [y1, y2, y3, y4, s1, m1, m2, s2, d1, d2] =>
    simp only [parseDate10, Bool.and_eq_true, decide_eq_true_eq] at h
    obtain ⟨⟨⟨⟨⟨⟨⟨⟨⟨⟨h1, h2⟩, h3⟩, h4⟩, h5⟩, h6⟩, h7⟩, h8⟩, h9⟩, h10⟩, h11⟩ := h
    refine ⟨rfl, ?_, ?_⟩
    · subst h1
      simp
    · intro l
      simp only [List.reverse_append, List.reverse_cons]
      simp only [List.nil_append, List.cons_append, List.append_assoc, List.headD_cons]
      exact digit_not_space d2 h10

/-- dropWhile is the identity when the default-headed first character is
not whitespace. -/
theorem dropWhile_of_headD (l : List Char) (h : goIsSpace (l.headD '-') = false) :
    l.dropWhile goIsSpace = l := by
  cases l with
  | nil => rfl
  | cons a as =>
    simp only [List.headD_cons] at h
    simp [List.dropWhile_cons, h]

/-- goTrimSpace is the identity on a list whose two ends are not
whitespace. -/
theorem trim_fixed (m : List Char) (h1 : goIsSpace (m.headD '-') = false)
    (h2 : goIsSpace (m.reverse.headD '-') = false) : goTrimSpace m = m := by
  unfold goTrimSpace
  rw [dropWhile_of_headD m h1, dropWhile_of_headD m.reverse h2, List.reverse_reverse]

/-- The default-headed first character of base-hyphen-rest agrees with that
of base. -/
theorem headD_append_dash (l d : List Char) :
    (l ++ '-' :: d).headD '-' = l.headD '-' := by
  cases l <;> simp

/-- Lists with no last-hyphen index contain no hyphen. -/
theorem lastDashIdx_none_no_dash : ∀ m : List Char, lastDashIdx m = none → '-' ∉ m := by
  intro m
  induction m with
  | nil =>
    intro _
    simp
  | cons c cs ih =>
    intro h
    unfold lastDashIdx at h
    cases hcs : lastDashIdx cs with
    | some i => rw [hcs] at h; simp at h
    | none =>
      rw [hcs] at h
      by_cases hc : c = '-'
      · rw [if_pos hc] at h; simp at h
      · rw [List.mem_cons]
        rintro (h' | h')
        · exact hc h'.symm
        · exact ih hcs h'

/-- No hyphen occurs after the last-hyphen index. -/
theorem lastDashIdx_drop_no_dash :
    ∀ (m : List Char) (i : Nat), lastDashIdx m = some i → '-' ∉ m.drop (i + 1) := by
  intro m
  induction m with
  | nil =>
    intro i h
    simp [lastDashIdx] at h
  | cons c cs ih =>
    intro i h
    unfold lastDashIdx at h
    cases hcs : lastDashIdx cs with
    | some j =>
      rw [hcs] at h
      injection h with h2
      subst h2
      simpa [List.drop_succ_cons] using ih j hcs
    | none =>
      rw [hcs] at h
      by_cases hc : c = '-'
      · rw [if_pos hc] at h
        injection h with h2
        subst h2
        simpa [List.drop_succ_cons] using lastDashIdx_none_no_dash cs hcs
      · rw [if_neg hc] at h
        simp at h

/-- The fallback branch of ParseModelSnapshot always returns the input with
an empty snapshot: the segment after the last hyphen contains no hyphen, so
it can never parse as a hyphenated date. -/
theorem snapshotFallback_eq (m : List Char) : snapshotFallback m = (m, []) := by
  cases hld : lastDashIdx m with
  | none => simp [snapshotFallback, hld]
  | some i =>
    simp only [snapshotFallback, hld]
    by_cases hlen : (m.drop (i + 1)).length ≠ 10
    · rw [if_pos hlen]
    · rw [if_neg hlen]
      have hfalse : parseDate10 (m.drop (i + 1)) = false := by
        cases hp : parseDate10 (m.drop (i + 1)) with
        | false => rfl
        | true =>
          obtain ⟨_, hmem, _⟩ := parseDate10_facts _ hp
          exact absurd hmem (lastDashIdx_drop_no_dash m i hld)
      rw [if_neg (by simp [hfalse])]

/-- C6 counterexample: a base beginning with a whitespace character is
trimmed by ParseModelSnapshot, so the returned base is not the original
base: the claim quantified over every base string fails. -/
theorem c6_counterexample :
    ParseModelSnapshot ([' ', 'a'] ++ '-' :: sampleDateChars)
      ≠ ([' ', 'a'], sampleDateChars) := by
  decide

/-- C6 (amended): for every base whose first character is not whitespace
and every valid date, ParseModelSnapshot splits base-hyphen-date into the
base and the date; gpt-5-nano and gpt-5-nano-rc1 map to themselves with an
empty snapshot. -/
theorem c6_parse_model_snapshot (base date : List Char)
    (hdate : parseDate10 date = true)
    (hbase : goIsSpace (base.headD '-') = false) :
    ParseModelSnapshot (base ++ '-' :: date) = (base, date)
      ∧ ParseModelSnapshot gptNanoChars = (gptNanoChars, [])
      ∧ ParseModelSnapshot gptNanoRc1Chars = (gptNanoRc1Chars, []) := by
  obtain ⟨hlen, hmem, hrev⟩ := parseDate10_facts date hdate
  refine ⟨?_, by decide, by decide⟩
  have htrim : goTrimSpace (base ++ '-' :: date) = base ++ '-' :: date := by
    apply trim_fixed
    · rw [headD_append_dash]
      exact hbase
    · exact hrev base
  have hlen' : (base ++ '-' :: date).length = base.length + 11 := by
    simp only [List.length_append, List.length_cons, hlen]
  have hlen1 : (base ++ ['-']).length = base.length + 1 := by simp
  have hsplit : base ++ '-' :: date = (base ++ ['-']) ++ date := by
    simp [List.append_assoc]
  have hdrop : (base ++ '-' :: date).drop ((base ++ '-' :: date).length - 10) = date := by
    rw [hlen']
    have h1 : base.length + 11 - 10 = base.length + 1 := by omega
    rw [h1, hsplit]
    exact List.drop_left' hlen1
  have hgetd : (base ++ '-' :: date).getD ((base ++ '-' :: date).length - 11) ' ' = '-' := by
    rw [hlen']
    have h0 : base.length + 11 - 11 = base.length := by omega
    rw [h0]
    simp [List.getD, List.getElem?_append_right]
    rw [List.getElem_append_right (le_refl base.length)]
    simp
  have htake : (base ++ '-' :: date).take ((base ++ '-' :: date).length - 11) = base := by
    rw [hlen']
    have h0 : base.length + 11 - 11 = base.length := by omega
    rw [h0]
    exact List.take_left base ('-' :: date)
  simp only [ParseModelSnapshot, htrim]
  rw [if_pos ⟨by rw [hlen']; omega, by rw [hdrop]; exact hdate, hgetd⟩]
  rw [htake, hdrop]

/-- C6 witness: the amended theorem applied at the base gpt and the date
2025-08-07. -/
theorem c6_witness :
    parseDate10 sampleDateChars = true
      ∧ goIsSpace ((['g', 'p', 't'] : List Char).headD '-') = false
      ∧ ParseModelSnapshot (['g', 'p', 't'] ++ '-' :: sampleDateChars)
          = (['g', 'p', 't'], sampleDateChars) :=
  ⟨by decide, by decide,
    (c6_parse_model_snapshot ['g', 'p', 't'] sampleDateChars (by decide) (by decide)).1⟩

/-- C10: ParseModelSnapshot is extensionally its fast path alone, and it
returns a non-empty snapshot exactly when the trimmed input has at least
eleven characters whose last ten parse as a date preceded by a hyphen; the
fallback never produces a non-empty snapshot because the segment after the
last hyphen cannot contain the hyphens a date requires. -/
theorem c10_fast_path_only (m : List Char) :
    ParseModelSnapshot m = parseModelSnapshotFastOnly m
      ∧ ((ParseModelSnapshot m).2 ≠ []
          ↔ 11 ≤ (goTrimSpace m).length
              ∧ parseDate10 ((goTrimSpace m).drop ((goTrimSpace m).length - 10)) = true
              ∧ (goTrimSpace m).getD ((goTrimSpace m).length - 11) ' ' = '-') := by
  have heq : ParseModelSnapshot m = parseModelSnapshotFastOnly m := by
    simp only [ParseModelSnapshot, parseModelSnapshotFastOnly]
    by_cases hc : 11 ≤ (goTrimSpace m).length
        ∧ parseDate10 ((goTrimSpace m).drop ((goTrimSpace m).length - 10)) = true
        ∧ (goTrimSpace m).getD ((goTrimSpace m).length - 11) ' ' = '-'
    · rw [if_pos hc, if_pos hc]
    · rw [if_neg hc, if_neg hc, snapshotFallback_eq]
  refine ⟨heq, ?_⟩
  rw [heq]
  simp only [parseModelSnapshotFastOnly]
  by_cases hc : 11 ≤ (goTrimSpace m).length
      ∧ parseDate10 ((goTrimSpace m).drop ((goTrimSpace m).length - 10)) = true
      ∧ (goTrimSpace m).getD ((goTrimSpace m).length - 11) ' ' = '-'
  · rw [if_pos hc]
    constructor
    · intro _
      exact hc
    · intro _
      show (goTrimSpace m).drop ((goTrimSpace m).length - 10) ≠ []
      have h11 := hc.1
      have hdl : ((goTrimSpace m).drop ((goTrimSpace m).length - 10)).length = 10 := by
        rw [List.length_drop]
        omega
      intro hnil
      rw [hnil] at hdl
      simp at hdl
  · rw [if_neg hc]
    constructor
    · intro h
      exact absurd rfl h
    · intro h
      exact absurd h hc

end ExpenseTracker
